import Mathlib

/-!
Verification of the client-side collection-table interaction engine of the
OWASP Vulnerable Web Applications Directory site: the filter state store and
`updateFilters` normalization (assets/js/collection_table/filters.js), the
per-row matching of `applyFilters`, the sort click-cycle of `handleSort`
(assets/js/collection_table/controls.js), the advanced-search modal draft
logic (advanced_search scripts), the debounced search input, and the
HTML-escaping used by the pill renderers.

Strings are modelled by Lean `String` with list-based re-implementations of
the JavaScript primitives involved (`trim`, `toLowerCase`, `includes`,
`parseInt`, `Number`); JavaScript numbers are modelled as integers (every
numeric value handled by this code — years, star counts and thresholds —
is integral in the data the page serves).
-/

/-- The scalar JavaScript values that can reach the filter-update entry
points: `null`, `undefined`, a finite number (modelled as an integer),
a non-finite number (`NaN`/`Infinity`), or a string. -/
inductive JVal where
  | null
  | undefined
  | num (n : Int)
  | nan
  | str (s : String)
deriving DecidableEq, Repr

/-- A value supplied for a list-valued filter field: either not an array
(`Array.isArray` fails) or an array of scalar values. -/
inductive JList where
  | notArray
  | arr (xs : List JVal)
deriving DecidableEq, Repr

/-- Character-level model of JavaScript `String.prototype.trim`. -/
def trimChars (l : List Char) : List Char :=
  ((l.dropWhile Char.isWhitespace).reverse.dropWhile Char.isWhitespace).reverse

/-- `s.trim()` on strings. -/
def jsTrim (s : String) : String := String.mk (trimChars s.data)

/-- ASCII case folding of one character (JS `toLowerCase` restricted to the
ASCII range actually present in the table data). -/
def lowerChar (c : Char) : Char :=
  if 'A' ≤ c ∧ c ≤ 'Z' then Char.ofNat (c.toNat + 32) else c

/-- `s.toLowerCase()`. -/
def jsLower (s : String) : String := String.mk (s.data.map lowerChar)

/-- Does `l` start with `p`? -/
def startsWithList : List Char → List Char → Bool
  | _, [] => true
  | [], _ :: _ => false
  | a :: as, b :: bs => a = b && startsWithList as bs

/-- Does `l` contain `sub` as a contiguous sublist? -/
def containsList : List Char → List Char → Bool
  | l, sub =>
    startsWithList l sub ||
      match l with
      | [] => false
      | _ :: t => containsList t sub

/-- JavaScript `String.prototype.includes`. -/
def strIncludes (s sub : String) : Bool := containsList s.data sub.data

/-- Digit run to a natural number (most-significant first). -/
def digitsToNat (l : List Char) : Nat :=
  l.foldl (fun a c => a * 10 + (c.toNat - 48)) 0

/-- JavaScript `parseInt(s, 10)`: skip leading whitespace, read an optional
sign and the longest leading digit run; `none` models `NaN`. -/
def jsParseInt (s : String) : Option Int :=
  let l := s.data.dropWhile Char.isWhitespace
  let signAndRest : Int × List Char :=
    match l with
    | '-' :: rest => (-1, rest)
    | '+' :: rest => (1, rest)
    | _ => (1, l)
  let ds := signAndRest.2.takeWhile Char.isDigit
  if ds.isEmpty then none else some (signAndRest.1 * (digitsToNat ds : Int))

/-- JavaScript `Number(s)` on a string, restricted to the integer-literal
fragment: whitespace-only coerces to `0`, a signed decimal numeral to its
value, anything else to `NaN` (`none`). -/
def jsStringToNumber (s : String) : Option Int :=
  let t := trimChars s.data
  if t.isEmpty then some 0
  else
    let signAndRest : Int × List Char :=
      match t with
      | '-' :: rest => (-1, rest)
      | '+' :: rest => (1, rest)
      | _ => (1, t)
    if !signAndRest.2.isEmpty && signAndRest.2.all Char.isDigit then
      some (signAndRest.1 * (digitsToNat signAndRest.2 : Int))
    else none

/-- JavaScript `Number(v)` coercion; `none` models a non-finite result. -/
def jsNumber : JVal → Option Int
  | .null => some 0
  | .undefined => none
  | .num n => some n
  | .nan => none
  | .str s => jsStringToNumber s

/-- JavaScript `String(v)` coercion. -/
def jsToString : JVal → String
  | .null => "null"
  | .undefined => "undefined"
  | .num n => toString n
  | .nan => "NaN"
  | .str s => s

/-- `normalizeNumber` from the utils module: `null`/`undefined`/`''` map to
`null`, otherwise `Number(value)` if finite, else `null`. -/
def normalizeNumber (v : JVal) : Option Int :=
  match v with
  | .null => none
  | .undefined => none
  | .str "" => none
  | _ => jsNumber v

/-- `normalizeList` from the utils module: non-arrays map to `[]`; array
elements are stringified and trimmed, and empty strings are dropped. -/
def normalizeList : JList → List String
  | .notArray => []
  | .arr xs => (xs.map fun v => jsTrim (jsToString v)).filter (· ≠ "")

/-- JavaScript `split('|')` at the character level. -/
def splitOnPipe : List Char → List (List Char)
  | [] => [[]]
  | c :: rest =>
    let r := splitOnPipe rest
    if c = '|' then [] :: r
    else
      match r with
      | [] => [[c]]
      | h :: t => (c :: h) :: t

/-- `parseFilterList` from the utils module, applied to the result of
`getAttribute` (`none` = attribute absent): falsy values map to `[]`,
otherwise split on `|`, trim + lowercase each item, drop empties. -/
def parseFilterList : Option String → List String
  | none => []
  | some s =>
    if s = "" then []
    else ((splitOnPipe s.data).map fun item =>
      jsLower (jsTrim (String.mk item))).filter (· ≠ "")

/-- JavaScript `attr || dflt` where `attr` is a `getAttribute` result:
`null` and the empty string are falsy. -/
def attrOr (a : Option String) (dflt : String) : String :=
  match a with
  | none => dflt
  | some s => if s = "" then dflt else s

/-- Tag match mode (`techMatch` / `refMatch`). -/
inductive MatchMode where
  | and
  | or
deriving DecidableEq, Repr

/-- The `stars` filter when active: the literal sentinel `'none'` or a
numeric minimum threshold. -/
inductive StarsVal where
  | sentinelNone
  | threshold (n : Int)
deriving DecidableEq, Repr

/-- The committed filter record of a collection (`getDefaultFilters` shape). -/
structure Filters where
  query : String
  techs : List String
  refs : List String
  stars : Option StarsVal
  yearFrom : Option Int
  yearTo : Option Int
  techMatch : MatchMode
  refMatch : MatchMode
deriving DecidableEq, Repr

/-- `getDefaultFilters()`. -/
def defaultFilters : Filters :=
  { query := ""
    techs := []
    refs := []
    stars := none
    yearFrom := none
    yearTo := none
    techMatch := .or
    refMatch := .or }

/-- A partial update object passed to `updateFilters` / `updateDraft`:
`some` means the key is present (`'key' in updates`). -/
structure Updates where
  query : Option JVal
  techs : Option JList
  refs : Option JList
  stars : Option JVal
  yearFrom : Option JVal
  yearTo : Option JVal
  techMatch : Option JVal
  refMatch : Option JVal
deriving DecidableEq, Repr

/-- The empty update object. -/
def noUpdates : Updates := ⟨none, none, none, none, none, none, none, none⟩

/-- Normalization of a raw `query` value:
`rawQuery === null || rawQuery === undefined ? '' : String(rawQuery).trim()`. -/
def jsQueryNorm (v : JVal) : String :=
  match v with
  | .null => ""
  | .undefined => ""
  | _ => jsTrim (jsToString v)

/-- Normalization of a raw `stars` value:
`updates.stars === 'none' ? 'none' : normalizeNumber(updates.stars)`. -/
def starsNorm (v : JVal) : Option StarsVal :=
  if v = .str "none" then some .sentinelNone
  else (normalizeNumber v).map .threshold

/-- Normalization of a raw match-mode value: `v === 'and' ? 'and' : 'or'`. -/
def matchNorm (v : JVal) : MatchMode :=
  if v = .str "and" then .and else .or

/-- The per-field overwrite pass of `updateFilters` (each listed key is
normalized and stored; absent keys keep their prior value). The source
assigns the eight fields in sequence; the assignments are independent, so
they are modelled as one simultaneous record update. -/
def applyUpdates (f : Filters) (u : Updates) : Filters :=
  { query := match u.query with | some v => jsQueryNorm v | none => f.query
    techs := match u.techs with | some l => normalizeList l | none => f.techs
    refs := match u.refs with | some l => normalizeList l | none => f.refs
    stars := match u.stars with | some v => starsNorm v | none => f.stars
    yearFrom := match u.yearFrom with | some v => normalizeNumber v | none => f.yearFrom
    yearTo := match u.yearTo with | some v => normalizeNumber v | none => f.yearTo
    techMatch := match u.techMatch with | some v => matchNorm v | none => f.techMatch
    refMatch := match u.refMatch with | some v => matchNorm v | none => f.refMatch }

/-- `updateFilters` (filters.js lines 209–253) as a pure state transformer:
field-wise normalization followed by the year fixup
(`yearFrom === null` forces `yearTo := null`; a `yearFrom` update without a
`yearTo` key copies `yearFrom` into `yearTo`). The trailing `applyFilters`
side effect is modelled separately by `applyFilters`. -/
def updateFilters (f : Filters) (u : Updates) : Filters :=
  let f := applyUpdates f u
  if f.yearFrom = none then { f with yearTo := none }
  else if u.yearFrom.isSome ∧ u.yearTo = none then { f with yearTo := f.yearFrom }
  else f

/-- A table row as seen by `applyFilters`: the lowercase text content
(`getLowerText(row)`) and the four `data-filter-*` attributes (`none` =
attribute absent). -/
structure Row where
  lowerText : String
  techAttr : Option String
  refsAttr : Option String
  starsAttr : Option String
  yearAttr : Option String
deriving DecidableEq, Repr

/-- The per-row visibility computation of `applyFilters` (filters.js lines
149–197): `matches` starts `true` and each active criterion group may clear
it; the row keeps the `filtered-out` class off exactly when the result is
`true`. `parseInt` failures are JavaScript `NaN`, on which every comparison
is false, and `!rowYear` is also true for a parsed year of `0`. -/
def rowMark (f : Filters) (row : Row) : Bool :=
  let query := jsLower (jsTrim f.query)
  let techs := f.techs.map jsLower
  let refs := f.refs.map jsLower
  let m1 : Bool := if query ≠ "" then strIncludes row.lowerText query else true
  let m2 : Bool :=
    if m1 && !techs.isEmpty then
      let rowTechs := parseFilterList row.techAttr
      match f.techMatch with
      | .and => techs.all (rowTechs.contains ·)
      | .or => techs.any (rowTechs.contains ·)
    else m1
  let m3 : Bool :=
    if m2 && !refs.isEmpty then
      let rowRefs := parseFilterList row.refsAttr
      match f.refMatch with
      | .and => refs.all (rowRefs.contains ·)
      | .or => refs.any (rowRefs.contains ·)
    else m2
  let m4 : Bool :=
    match f.stars with
    | none => m3
    | some sv =>
      if m3 then
        match jsParseInt (attrOr row.starsAttr "0"), sv with
        | none, _ => false
        | some rowStars, .sentinelNone => rowStars < 1
        | some rowStars, .threshold t => t ≤ rowStars
      else m3
  let m5 : Bool :=
    match f.yearFrom with
    | none => m4
    | some yf =>
      if m4 then
        match jsParseInt (attrOr row.yearAttr "") with
        | none => false
        | some rowYear =>
          if rowYear = 0 then false
          else
            match f.yearTo with
            | some yt => min yf yt ≤ rowYear ∧ rowYear ≤ max yf yt
            | none => rowYear = yf
      else m4
  m5

/-- `applyFilters` over the rows of the table: the list of per-row
`matches` flags (the row is visible, i.e. not `filtered-out`, when its flag
is `true`) together with the recomputed `visibleCount`. -/
def applyFilters (f : Filters) : List Row → List Bool × Nat
  | [] => ([], 0)
  | r :: rs =>
    let m := rowMark f r
    let rest := applyFilters f rs
    (m :: rest.1, (if m then 1 else 0) + rest.2)

/-- Criterion group 1 (free text): inactive when the effective query is
empty, otherwise the row text must contain it. -/
def queryPass (f : Filters) (row : Row) : Bool :=
  let query := jsLower (jsTrim f.query)
  query = "" || strIncludes row.lowerText query

/-- Criterion group 2 (technology tags): inactive when no tag is selected;
`and` requires all selected tags, `or` at least one. -/
def techPass (f : Filters) (row : Row) : Bool :=
  f.techs.isEmpty ||
    (let sel := f.techs.map jsLower
     let rowTechs := parseFilterList row.techAttr
     match f.techMatch with
     | .and => sel.all (rowTechs.contains ·)
     | .or => sel.any (rowTechs.contains ·))

/-- Criterion group 3 (reference tags), symmetric to `techPass`. -/
def refPass (f : Filters) (row : Row) : Bool :=
  f.refs.isEmpty ||
    (let sel := f.refs.map jsLower
     let rowRefs := parseFilterList row.refsAttr
     match f.refMatch with
     | .and => sel.all (rowRefs.contains ·)
     | .or => sel.any (rowRefs.contains ·))

/-- Criterion group 4 (stars): inactive when `stars` is `null`; the sentinel
requires a star count below 1, a threshold requires at least it; an
unparseable star attribute fails both. -/
def starsPass (f : Filters) (row : Row) : Bool :=
  match f.stars with
  | none => true
  | some sv =>
    match jsParseInt (attrOr row.starsAttr "0"), sv with
    | none, _ => false
    | some rowStars, .sentinelNone => rowStars < 1
    | some rowStars, .threshold t => t ≤ rowStars

/-- Criterion group 5 (year): inactive when `yearFrom` is `null`; with a
`yearTo` the year must fall in the inclusive range, otherwise it must equal
`yearFrom`; an absent, unparseable or zero year fails. -/
def yearPass (f : Filters) (row : Row) : Bool :=
  match f.yearFrom with
  | none => true
  | some yf =>
    match jsParseInt (attrOr row.yearAttr "") with
    | none => false
    | some rowYear =>
      if rowYear = 0 then false
      else
        match f.yearTo with
        | some yt => min yf yt ≤ rowYear ∧ rowYear ≤ max yf yt
        | none => rowYear = yf

/-- `cloneFilters` of the advanced-search module: field-by-field defensive
copy of a filter record into a fresh draft. -/
def cloneFilters (f : Filters) : Filters :=
  { query := if f.query = "" then "" else f.query
    techs := f.techs
    refs := f.refs
    stars := f.stars
    yearFrom := f.yearFrom
    yearTo := f.yearTo
    techMatch := match f.techMatch with | .and => .and | .or => .or
    refMatch := match f.refMatch with | .and => .and | .or => .or }

/-- `updateDraft`, step 1: the `query` branch. -/
def draftQ (d : Filters) (u : Updates) : Filters :=
  match u.query with | some v => { d with query := jsQueryNorm v } | none => d

/-- `updateDraft`, step 2: the `techs` branch. -/
def draftT (d : Filters) (u : Updates) : Filters :=
  match u.techs with | some l => { d with techs := normalizeList l } | none => d

/-- `updateDraft`, step 3: the `refs` branch. -/
def draftR (d : Filters) (u : Updates) : Filters :=
  match u.refs with | some l => { d with refs := normalizeList l } | none => d

/-- `updateDraft`, step 4: the `stars` branch. -/
def draftS (d : Filters) (u : Updates) : Filters :=
  match u.stars with | some v => { d with stars := starsNorm v } | none => d

/-- `updateDraft`, step 5: the `yearFrom` branch, with its inline fixup
(`null` clears `yearTo`; a missing `yearTo` key copies the new value). -/
def draftYF (d : Filters) (u : Updates) : Filters :=
  match u.yearFrom with
  | some v =>
    let yf := normalizeNumber v
    if yf = none then { d with yearFrom := yf, yearTo := none }
    else if u.yearTo = none then { d with yearFrom := yf, yearTo := yf }
    else { d with yearFrom := yf }
  | none => d

/-- `updateDraft`, step 6: the `yearTo` branch. -/
def draftYT (d : Filters) (u : Updates) : Filters :=
  match u.yearTo with | some v => { d with yearTo := normalizeNumber v } | none => d

/-- `updateDraft`, step 7: the `techMatch` branch. -/
def draftTM (d : Filters) (u : Updates) : Filters :=
  match u.techMatch with | some v => { d with techMatch := matchNorm v } | none => d

/-- `updateDraft`, step 8: the `refMatch` branch. -/
def draftRM (d : Filters) (u : Updates) : Filters :=
  match u.refMatch with | some v => { d with refMatch := matchNorm v } | none => d

/-- `updateDraft` of the advanced-search module (same normalization as
`updateFilters`, but the `yearFrom` convenience fixup happens inside the
`yearFrom` branch, before a supplied `yearTo` is applied, and the final
guard only forces `yearTo` to `null` when `yearFrom` is `null`): the eight
key branches in source order, then the final year guard. -/
def updateDraft (d : Filters) (u : Updates) : Filters :=
  let d := draftRM (draftTM (draftYT (draftYF (draftS (draftR (draftT (draftQ d u) u) u) u) u) u) u) u
  if d.yearFrom = none then { d with yearTo := none } else d

/-- The draft object handed to `updateFilters` by `commitDraft`: a plain
object in which every filter key is present, carrying the draft's runtime
values. -/
def filtersAsUpdates (d : Filters) : Updates :=
  { query := some (.str d.query)
    techs := some (.arr (d.techs.map .str))
    refs := some (.arr (d.refs.map .str))
    stars := some (match d.stars with
      | none => .null
      | some .sentinelNone => .str "none"
      | some (.threshold n) => .num n)
    yearFrom := some (match d.yearFrom with | none => .null | some n => .num n)
    yearTo := some (match d.yearTo with | none => .null | some n => .num n)
    techMatch := some (.str (match d.techMatch with | .and => "and" | .or => "or"))
    refMatch := some (.str (match d.refMatch with | .and => "and" | .or => "or")) }

/-- The modal-session state of one collection: the live committed filters,
the draft entry of the `drafts` map, and whether the modal is open. -/
structure ModalState where
  live : Filters
  draft : Option Filters
  modalOpen : Bool
deriving DecidableEq, Repr

/-- The user interactions routed through the advanced-search modal:
`edit` covers every draft-mutating control (search box after debounce,
multi-select checkbox change, single-select popover option, modal pill
removal), `clearDraft` the modal clear button, `accept` the Accept button,
`close` any discarding dismissal (close control, or Escape with no open
popover). -/
inductive ModalEvent where
  | edit (u : Updates)
  | clearDraft
  | accept
  | close
deriving DecidableEq, Repr

/-- Opening the modal: clone the live filters into the draft. -/
def openModal (live : Filters) : ModalState :=
  { live := live, draft := some (cloneFilters live), modalOpen := true }

/-- One modal interaction step. `edit` and `clearDraft` only touch the
draft (`updateDraft` / `resetDraft`); `accept` commits the draft through
`updateFilters` and closes; `close` discards the draft and closes. -/
def modalStep (s : ModalState) : ModalEvent → ModalState
  | .edit u =>
    if s.modalOpen then
      { s with draft := some (updateDraft (s.draft.getD (cloneFilters s.live)) u) }
    else s
  | .clearDraft =>
    if s.modalOpen then { s with draft := some defaultFilters } else s
  | .accept =>
    match s.draft with
    | none => { s with modalOpen := false }
    | some d =>
      { live := updateFilters s.live (filtersAsUpdates d), draft := none, modalOpen := false }
  | .close => { s with draft := none, modalOpen := false }

/-- Is the event a draft-only edit (no commit, no dismissal)? -/
def isEditEvent : ModalEvent → Bool
  | .edit _ => true
  | .clearDraft => true
  | .accept => false
  | .close => false

/-- The debounce state of a collection's free-text input: the value captured
by the pending `setTimeout` (if any) and the query values committed to
`updateFilters` so far, oldest first. -/
structure DebounceState where
  pendingValue : Option String
  committed : List String
deriving DecidableEq, Repr

/-- Debounce events: a keystroke (the `input` listener clears the pending
timer and schedules a new one capturing the current input value) or the
expiry of the pending timer (which commits its captured value). Two
keystrokes less than the 300 ms window apart have no `timerFire` between
them. -/
inductive DebounceEvent where
  | keystroke (value : String)
  | timerFire
deriving DecidableEq, Repr

/-- One debounce transition. -/
def debounceStep (s : DebounceState) : DebounceEvent → DebounceState
  | .keystroke v => { s with pendingValue := some v }
  | .timerFire =>
    match s.pendingValue with
    | some v => { pendingValue := none, committed := s.committed ++ [v] }
    | none => s

/-- Sort direction. -/
inductive Dir where
  | asc
  | desc
deriving DecidableEq, Repr

/-- Sort mode of a column (`text` | `numeric` | `date`). -/
inductive SMode where
  | text
  | numeric
  | date
deriving DecidableEq, Repr

/-- The per-collection sort descriptor (`state.sort`). -/
structure SortSt where
  columnIndex : Option Nat
  direction : Option Dir
  mode : SMode
  clickCount : Nat
  columnName : Option String
  displayLabel : Option String
deriving DecidableEq, Repr

/-- The reset sort descriptor used by `getState` and `resetSortState`. -/
def defaultSortSt : SortSt :=
  { columnIndex := none, direction := none, mode := .text, clickCount := 0,
    columnName := none, displayLabel := none }

/-- A table cell as read by the sort comparator: its lowercase text content
(`getLowerText(cell)`) and the three `data-sort-value-*` attributes. -/
structure Cell where
  lowerText : String
  sortDate : Option String
  sortNumeric : Option String
  sortText : Option String
deriving DecidableEq, Repr

/-- A sortable table row: its cells in column order. -/
structure SRow where
  cells : List Cell
deriving DecidableEq, Repr

/-- The immutable attributes of a sortable column header (`data-column`,
the `dual-sort` class, `data-column-name`). -/
structure HeaderInfo where
  column : Nat
  dualSort : Bool
  columnName : String
deriving DecidableEq, Repr

/-- The mutable presentation state of one header: its `aria-sort` value. -/
inductive Aria where
  | noSort
  | ascending
  | descending
deriving DecidableEq, Repr

/-- The table-and-sort world of one collection as `handleSort` sees it:
header attributes (static), per-header indicator state (`aria-sort` and the
`.sort-mode-indicator` text), the current row order, the bind-time snapshot
`originalRows`, and the sort descriptor. -/
structure SortEnv where
  headers : List HeaderInfo
  indicators : List (Aria × String)
  rows : List SRow
  originalRows : List SRow
  sort : SortSt
deriving DecidableEq, Repr

/-- A placeholder cell: reading a `data-sort-value-*` attribute of a missing
cell behaves like an absent attribute. -/
def emptyCell : Cell := { lowerText := "", sortDate := none, sortNumeric := none, sortText := none }

/-- A monotone integer key for an ISO `YYYY-MM-DD` date string, standing in
for the millisecond timestamp of `new Date(s)`; `new Date(0)` (the value
used for a missing attribute) is the epoch `1970-01-01`. -/
def dateKey (s : String) : Int :=
  match (s.splitOn "-").map jsStringToNumber with
  | [some y, some m, some d] => y * 10000 + m * 100 + d
  | _ => 0

/-- The epoch key used for an empty `data-sort-value-date`. -/
def epochKey : Int := dateKey "1970-01-01"

/-- The comparator of `sortTable` for one pair of rows, as an integer whose
sign is the comparator's (ascending direction; the descending comparator is
its negation). `isDualSort` and `sortMode` select the key: date attribute,
numeric attribute, text attribute, or lowercase cell text
(`localeCompare` is modelled as code-point order, with which it agrees on
the ASCII data of the tables). -/
def cellCompare (isDualSort : Bool) (sortMode : SMode) (columnIndex : Nat)
    (a b : SRow) : Ordering :=
  let cellA := a.cells.getD columnIndex emptyCell
  let cellB := b.cells.getD columnIndex emptyCell
  if isDualSort ∧ sortMode = .date then
    let valueA := attrOr cellA.sortDate ""
    let valueB := attrOr cellB.sortDate ""
    let dateA := if valueA = "" then epochKey else dateKey valueA
    let dateB := if valueB = "" then epochKey else dateKey valueB
    compare dateA dateB
  else if isDualSort ∧ sortMode = .numeric then
    let numA := (jsParseInt (attrOr cellA.sortNumeric "0")).getD 0
    let numB := (jsParseInt (attrOr cellB.sortNumeric "0")).getD 0
    compare numA numB
  else if isDualSort ∧ sortMode = .text then
    compare (attrOr cellA.sortText "") (attrOr cellB.sortText "")
  else
    compare cellA.lowerText cellB.lowerText

/-- Strictly-less test derived from the comparator and direction. -/
def rowLt (isDualSort : Bool) (sortMode : SMode) (dir : Dir) (columnIndex : Nat)
    (a b : SRow) : Bool :=
  match dir, cellCompare isDualSort sortMode columnIndex a b with
  | .asc, .lt => true
  | .desc, .gt => true
  | _, _ => false

/-- Stable insertion of a row before the first strictly greater row. -/
def insertRow (lt : SRow → SRow → Bool) (x : SRow) : List SRow → List SRow
  | [] => [x]
  | y :: ys => if lt x y then x :: y :: ys else y :: insertRow lt x ys

/-- Stable sort of the row list (modern engines' `Array.prototype.sort` is
stable; ties keep their relative order). -/
def stableSort (lt : SRow → SRow → Bool) : List SRow → List SRow
  | [] => []
  | x :: xs => insertRow lt x (stableSort lt xs)

/-- `sortTable(wrapper, columnIndex, direction, sortMode)`: reorders the
rows by the comparator; `isDualSort` is read from the header with the given
`data-column`. -/
def sortTable (headers : List HeaderInfo) (rows : List SRow)
    (columnIndex : Nat) (dir : Dir) (sortMode : SMode) : List SRow :=
  let isDualSort := match headers.find? (fun h => h.column = columnIndex) with
    | some h => h.dualSort
    | none => false
  stableSort (rowLt isDualSort sortMode dir columnIndex) rows

/-- `getSortDisplayLabel` (filters.js lines 122–133). -/
def getSortDisplayLabel (columnName : String) (mode : SMode) : String :=
  if columnName = "" then ""
  else if columnName = "App. URL" ∧ mode = .numeric then "Stars"
  else if columnName = "App. URL" ∧ mode = .text then "Name"
  else if columnName = "Note(s)" ∧ mode = .date then "Last Commit"
  else if columnName = "Note(s)" ∧ mode = .text then "Notes"
  else columnName

/-- The `.sort-mode-indicator` text written for the active dual-sort
header (controls.js lines 174–186). -/
def modeIndicatorText (isDualSort : Bool) (columnName : String) (newMode : SMode) : String :=
  if isDualSort then
    if columnName = "App. URL" then
      if newMode = .numeric then "(sorting by stars)" else "(sorting by name)"
    else if columnName = "Note(s)" then
      if newMode = .date then "(sorting by last commit)" else "(sorting by notes)"
    else ""
  else ""

/-- The direction/mode/clickCount chosen by `handleSort` (controls.js lines
107–152): the 5-state `clickCount % 5` cycle for a dual-sort column, the
3-state asc/desc/reset cycle for a regular column, and the restart at state
1 when a different column is clicked. -/
def sortDecision (s : SortSt) (columnIndex : Nat) (isDualSort : Bool)
    (columnName : String) : Option Dir × SMode × Nat :=
  if s.columnIndex = some columnIndex then
    let cc := s.clickCount + 1
    if isDualSort then
      match cc % 5 with
      | 1 => (some .asc, (if columnName = "App. URL" then .numeric else .date), cc)
      | 2 => (some .desc, (if columnName = "App. URL" then .numeric else .date), cc)
      | 3 => (some .asc, .text, cc)
      | 4 => (some .desc, .text, cc)
      | _ => (none, .text, 0)
    else
      match s.direction with
      | some .asc => (some .desc, .text, cc)
      | some .desc => (none, .text, cc)
      | none => (some .asc, .text, cc)
  else
    (some .asc,
     if isDualSort ∧ (columnName = "App. URL" ∨ columnName = "Note(s)") then
       (if columnName = "App. URL" then .numeric else .date)
     else .text,
     1)

/-- One click (or Enter/Space keypress) on the sortable header at position
`hIdx`: clear every header's `aria-sort` and mode indicator, then either
sort the rows and record the new sort state, or — on a reset step — restore
the bind-time row order (`resetSortState(state, true)`, which calls
`resetTableOrder`) and clear the sort descriptor. -/
def handleSort (env : SortEnv) (hIdx : Nat) : SortEnv :=
  match env.headers[hIdx]? with
  | none => env
  | some header =>
    let columnIndex := header.column
    let isDualSort := header.dualSort
    let columnName := header.columnName
    let decision := sortDecision env.sort columnIndex isDualSort columnName
    let cleared := env.indicators.map fun _ => (Aria.noSort, "")
    match decision.1 with
    | some dir =>
      let newMode := decision.2.1
      let indicators := cleared.set hIdx
        ((if dir = .asc then Aria.ascending else Aria.descending),
         modeIndicatorText isDualSort columnName newMode)
      { env with
        indicators := indicators
        rows := sortTable env.headers env.rows columnIndex dir newMode
        sort :=
          { columnIndex := some columnIndex
            direction := some dir
            mode := newMode
            clickCount := decision.2.2
            columnName := some columnName
            displayLabel := some (if isDualSort then getSortDisplayLabel columnName newMode
              else columnName) } }
    | none =>
      { env with
        indicators := cleared
        rows := env.originalRows
        sort := defaultSortSt }

/-- The double-quote character. -/
def quoteChar : Char := Char.ofNat 34

/-- The single-quote (apostrophe) character. -/
def aposChar : Char := Char.ofNat 39

/-- One global single-character `String.prototype.replace` pass. -/
def replC (c : Char) (r : List Char) : List Char → List Char
  | [] => []
  | ch :: t => (if ch = c then r else [ch]) ++ replC c r t

/-- `escapeHtml` from the utils module: the five sequential global
replacements, ampersand first. -/
def escapeHtml (s : String) : String :=
  String.mk (replC aposChar "&#39;".data
    (replC quoteChar "&quot;".data
      (replC '>' "&gt;".data
        (replC '<' "&lt;".data
          (replC '&' "&amp;".data s.data)))))

/-- The per-character effect of the five replacement passes. -/
def escChar (c : Char) : List Char :=
  if c = '&' then "&amp;".data
  else if c = '<' then "&lt;".data
  else if c = '>' then "&gt;".data
  else if c = quoteChar then "&quot;".data
  else if c = aposChar then "&#39;".data
  else [c]

/-- Character-wise expansion of a whole character list. -/
def escList : List Char → List Char
  | [] => []
  | c :: t => escChar c ++ escList t

/-- A character that cannot open a tag, close an attribute, or break out of
a quoted attribute value. -/
def htmlSafeChar (c : Char) : Bool :=
  !(c = '<' || c = '>' || c = quoteChar || c = aposChar)

/-- Every ampersand in the list opens one of the five entities emitted by
`escapeHtml`. -/
def ampsOk : List Char → Bool
  | [] => true
  | c :: rest =>
    if c = '&' then
      (startsWithList rest "amp;".data || startsWithList rest "lt;".data ||
       startsWithList rest "gt;".data || startsWithList rest "quot;".data ||
       startsWithList rest "#39;".data) && ampsOk rest
    else ampsOk rest

/-- `formatStars`: `Number.prototype.toLocaleString('en-US')` grouping of
the digits of an integer, commas every three digits (the argument is always
a finite integer here). Operates on the reversed digit list. -/
def groupRev : List Char → List Char
  | a :: b :: c :: d :: rest => a :: b :: c :: ',' :: groupRev (d :: rest)
  | l => l

/-- `formatStars` from the utils module on an integer star count. -/
def formatStars (n : Int) : String :=
  String.mk ((if n < 0 then ['-'] else []) ++ (groupRev (toString n.natAbs).data.reverse).reverse)

/-- A pill descriptor (`buildPills` element). -/
structure Pill where
  type : String
  value : String
  label : String
deriving DecidableEq, Repr

/-- `buildPills` (filters.js lines 18–76): one pill per active atomic
filter value — the query, each selected tech tag, each selected refs tag,
the star threshold or star sentinel, and the year or year range. -/
def buildPills (f : Filters) : List Pill :=
  (if f.query ≠ "" then [{ type := "query", value := f.query, label := f.query }] else [])
  ++ f.techs.map (fun v => { type := "tech", value := v, label := v })
  ++ f.refs.map (fun v => { type := "refs", value := v, label := v })
  ++ (match f.stars with
      | none => []
      | some .sentinelNone => [{ type := "stars", value := "none", label := "No Stars" }]
      | some (.threshold n) =>
        [{ type := "stars", value := toString n, label := "+" ++ formatStars n ++ " Stars" }])
  ++ (match f.yearFrom with
      | none => []
      | some yf =>
        let label := match f.yearTo with
          | some yt =>
            if yt ≠ yf then toString (min yf yt) ++ "-" ++ toString (max yf yt)
            else toString yf
          | none => toString yf
        [{ type := "year", value := label, label := label }])

/-- The pill button markup of `renderPills`/`renderModalPills`, with the
already-escaped value and label interpolations. -/
def pillButtonHtml (ptype value label : String) : String :=
  "<button type=\"button\" class=\"filter-pill\" data-pill-type=\"" ++ ptype ++
  "\" data-pill-value=\"" ++ value ++
  "\" aria-label=\"Remove " ++ label ++
  " filter\">" ++ label ++
  "<span class=\"pill-remove\" aria-hidden=\"true\">x</span></button>"

/-- `''.join` of the generated pill fragments. -/
def concatAll : List String → String
  | [] => ""
  | s :: rest => s ++ concatAll rest

/-- The innerHTML written by `renderPills` (filters.js lines 78–94): every
pill label and value goes through `escapeHtml` before interpolation. -/
def renderPillsHtml (f : Filters) : String :=
  concatAll ((buildPills f).map fun pill =>
    pillButtonHtml pill.type (escapeHtml pill.value) (escapeHtml pill.label))

/-- The innerHTML written by `renderModalPills` (advanced_search/sync.js
lines 142–159), which uses the same template and the same escaping. -/
def renderModalPillsHtml (f : Filters) : String :=
  concatAll ((buildPills f).map fun pill =>
    pillButtonHtml pill.type (escapeHtml pill.value) (escapeHtml pill.label))

/-- Occurrences of a character in a string. -/
def countChar (s : String) (c : Char) : Nat := s.data.count c

/-- The scenario row `{name: "Alpha", stars: 5, year: 2020}`. -/
def alphaRow : Row :=
  { lowerText := "alpha", techAttr := none, refsAttr := none,
    starsAttr := some "5", yearAttr := some "2020" }

/-- The scenario row `{name: "Beta", stars: 0, year: 2021}`. -/
def betaRow : Row :=
  { lowerText := "beta", techAttr := none, refsAttr := none,
    starsAttr := some "0", yearAttr := some "2021" }

/-- The scenario row `{name: "Gamma", stars: 12, year: 2020}`. -/
def gammaRow : Row :=
  { lowerText := "gamma", techAttr := none, refsAttr := none,
    starsAttr := some "12", yearAttr := some "2020" }

/-- The scenario table. -/
def scenarioRows : List Row := [alphaRow, betaRow, gammaRow]

/-- Filters with only `stars = "none"` active. -/
def starsNoneFilters : Filters := { defaultFilters with stars := some StarsVal.sentinelNone }

/-- Filters with only `stars = 5` active. -/
def stars5Filters : Filters := { defaultFilters with stars := some (StarsVal.threshold 5) }

/-- A concrete one-column table (regular name column) for the sort
witnesses: initial order Gamma, Alpha, Beta. -/
def regularEnv : SortEnv :=
  { headers := [{ column := 0, dualSort := false, columnName := "App Name" }]
    indicators := [(Aria.noSort, "")]
    rows := [⟨[⟨"gamma", none, none, none⟩]⟩, ⟨[⟨"alpha", none, none, none⟩]⟩,
      ⟨[⟨"beta", none, none, none⟩]⟩]
    originalRows := [⟨[⟨"gamma", none, none, none⟩]⟩, ⟨[⟨"alpha", none, none, none⟩]⟩,
      ⟨[⟨"beta", none, none, none⟩]⟩]
    sort := defaultSortSt }

/-- A concrete one-column table with a dual-sort App. URL header for the
C4 witness. -/
def dualEnv : SortEnv :=
  { headers := [{ column := 0, dualSort := true, columnName := "App. URL" }]
    indicators := [(Aria.noSort, "")]
    rows := [⟨[⟨"beta", none, some "3", some "Beta"⟩]⟩,
      ⟨[⟨"alpha", none, some "7", some "Alpha"⟩]⟩]
    originalRows := [⟨[⟨"beta", none, some "3", some "Beta"⟩]⟩,
      ⟨[⟨"alpha", none, some "7", some "Alpha"⟩]⟩]
    sort := defaultSortSt }

/-- Mapping a function over a list preserves emptiness. -/
theorem isEmpty_map {α β : Type} (g : α → β) (l : List α) :
    (l.map g).isEmpty = l.isEmpty := by
  cases l <;> simp [List.isEmpty]

/-- Conditional overwrite of a short-circuit flag is Boolean conjunction. -/
theorem ite_eq_and (s y : Bool) : (if s = true then y else s) = (s && y) := by
  cases s <;> simp

/-- A `matches && group-active` guard amounts to `inactive-or-pass`. -/
theorem step_and (m e b : Bool) : (if m && !e then b else m) = (m && (e || b)) := by
  cases m <;> cases e <;> simp

/-- An `if cond then check else true` criterion is `¬cond ∨ check`. -/
theorem ite_not_eq {p : Prop} [Decidable p] (b : Bool) :
    (if ¬ p then b else true) = (decide p || b) := by
  by_cases h : p <;> simp [h]

/-- The sequential short-circuit computation of `applyFilters` agrees with
the conjunction of the five independent criterion groups. -/
theorem rowMark_eq_passes (f : Filters) (row : Row) :
    rowMark f row =
      (queryPass f row && (techPass f row && (refPass f row &&
       (starsPass f row && yearPass f row)))) := by
  obtain ⟨q, ts, rfs, st, yf, yt, tm, rm⟩ := f
  simp only [rowMark, queryPass, techPass, refPass, starsPass, yearPass, ne_eq,
    isEmpty_map, ite_not_eq, step_and]
  cases st <;> cases yf <;>
    simp only [ite_eq_and, Bool.and_true, Bool.true_and, Bool.and_assoc]

/-- On well-typed filter records the defensive copy is the identity. -/
theorem cloneFilters_eq (f : Filters) : cloneFilters f = f := by
  obtain ⟨q, ts, rfs, st, yf, yt, tm, rm⟩ := f
  cases tm <;> cases rm <;> by_cases h : q = "" <;> simp [cloneFilters, h]

/-- A replacement pass distributes over concatenation. -/
theorem replC_append (c : Char) (r : List Char) (l₁ l₂ : List Char) :
    replC c r (l₁ ++ l₂) = replC c r l₁ ++ replC c r l₂ := by
  induction l₁ with
  | nil => rfl
  | cons ch t ih => simp [replC, ih]

/-- The five sequential replacement passes amount to the single
character-wise expansion `escList`: the entities inserted by an earlier
pass contain none of the characters replaced by the later passes. -/
theorem escapeHtml_eq_escList (s : String) : (escapeHtml s).data = escList s.data := by
  suffices h : ∀ l : List Char,
      replC aposChar "&#39;".data (replC quoteChar "&quot;".data
        (replC '>' "&gt;".data (replC '<' "&lt;".data (replC '&' "&amp;".data l)))) =
      escList l by
    simpa [escapeHtml] using h s.data
  intro l
  induction l with
  | nil => rfl
  | cons c t ih =>
    show replC aposChar _ (replC quoteChar _ (replC '>' _ (replC '<' _
      (replC '&' _ (c :: t))))) = escChar c ++ escList t
    have hsplit : replC '&' "&amp;".data (c :: t) =
        (if c = '&' then "&amp;".data else [c]) ++ replC '&' "&amp;".data t := by
      simp [replC]
    rw [hsplit, replC_append, replC_append, replC_append, replC_append, ih]
    congr 1
    by_cases h1 : c = '&'
    · simp [h1, escChar, replC, quoteChar, aposChar]
    by_cases h2 : c = '<'
    · simp [h1, h2, escChar, replC, quoteChar, aposChar]
    by_cases h3 : c = '>'
    · simp [h1, h2, h3, escChar, replC, quoteChar, aposChar]
    by_cases h4 : c = quoteChar
    · simp [h1, h2, h3, h4, escChar, replC, quoteChar, aposChar]
    by_cases h5 : c = aposChar
    · simp [h1, h2, h3, h4, h5, escChar, replC, quoteChar, aposChar]
    · simp [escChar, replC, h1, h2, h3, h4, h5]

/-- Each expanded character is free of tag and quote characters. -/
theorem escChar_safe (c : Char) : (escChar c).all htmlSafeChar = true := by
  by_cases h1 : c = '&'
  · simp [escChar, h1]; decide
  by_cases h2 : c = '<'
  · simp [escChar, h1, h2]; decide
  by_cases h3 : c = '>'
  · simp [escChar, h1, h2, h3]; decide
  by_cases h4 : c = quoteChar
  · simp [escChar, h1, h2, h3, h4]; decide
  by_cases h5 : c = aposChar
  · simp [escChar, h1, h2, h3, h4, h5]; decide
  · simp [escChar, h1, h2, h3, h4, h5, htmlSafeChar]

/-- The whole expansion is free of tag and quote characters. -/
theorem escList_safe (l : List Char) : (escList l).all htmlSafeChar = true := by
  induction l with
  | nil => rfl
  | cons c t ih => simp [escList, List.all_append, escChar_safe, ih]

/-- Every list starts with the empty list. -/
theorem startsWith_nil (l : List Char) : startsWithList l [] = true := by
  cases l <;> rfl

/-- A list starts with itself, whatever follows. -/
theorem startsWith_append_self (p x : List Char) :
    startsWithList (p ++ x) p = true := by
  induction p with
  | nil => simp [startsWith_nil]
  | cons c t ih => simp [startsWithList, ih]

/-- Ampersand-freedom lets `ampsOk` skip a prefix. -/
theorem ampsOk_noAmp_append (l t : List Char) (h : l.all (· ≠ '&') = true) :
    ampsOk (l ++ t) = ampsOk t := by
  induction l with
  | nil => rfl
  | cons c cs ih =>
    simp only [List.all_cons, Bool.and_eq_true, decide_eq_true_eq] at h
    simp [ampsOk, h.1, ih h.2]

/-- An ampersand followed by a recognized entity body keeps `ampsOk`. -/
theorem ampsOk_entity (T t : List Char) (hT : T.all (· ≠ '&') = true)
    (hs : (startsWithList (T ++ t) "amp;".data || startsWithList (T ++ t) "lt;".data ||
      startsWithList (T ++ t) "gt;".data || startsWithList (T ++ t) "quot;".data ||
      startsWithList (T ++ t) "#39;".data) = true) :
    ampsOk ('&' :: (T ++ t)) = ampsOk t := by
  have h2 := ampsOk_noAmp_append T t hT
  simp only [ampsOk, if_pos rfl] at *
  simp only [hs, Bool.true_and] at *
  exact h2

/-- Prepending one expanded character preserves `ampsOk`. -/
theorem ampsOk_escChar (c : Char) (t : List Char) :
    ampsOk (escChar c ++ t) = ampsOk t := by
  by_cases h1 : c = '&'
  · subst h1
    exact ampsOk_entity "amp;".data t (by decide)
      (by simp [startsWith_append_self, startsWithList])
  by_cases h2 : c = '<'
  · subst h2
    exact ampsOk_entity "lt;".data t (by decide)
      (by simp [startsWith_append_self, startsWithList])
  by_cases h3 : c = '>'
  · subst h3
    exact ampsOk_entity "gt;".data t (by decide)
      (by simp [startsWith_append_self, startsWithList])
  by_cases h4 : c = quoteChar
  · subst h4
    exact ampsOk_entity "quot;".data t (by decide)
      (by simp [startsWith_append_self, startsWithList])
  by_cases h5 : c = aposChar
  · subst h5
    exact ampsOk_entity "#39;".data t (by decide)
      (by simp [startsWith_append_self, startsWithList])
  · simp [escChar, h1, h2, h3, h4, h5, ampsOk]

/-- The full expansion passes the entity check. -/
theorem ampsOk_escList (l : List Char) : ampsOk (escList l) = true := by
  induction l with
  | nil => rfl
  | cons c t ih => rw [escList, ampsOk_escChar]; exact ih

/-- Character counting distributes over string concatenation. -/
theorem countChar_append (a b : String) (c : Char) :
    countChar (a ++ b) c = countChar a c + countChar b c := by
  simp [countChar, String.data_append, List.count_append]

/-- Character counting distributes over joining. -/
theorem countChar_concatAll (l : List String) (c : Char) :
    countChar (concatAll l) c = (l.map (countChar · c)).sum := by
  induction l with
  | nil => rfl
  | cons s rest ih => simp [concatAll, countChar_append, ih]

/-- When the three interpolated strings are free of `c`, a pill fragment
contains exactly as many `c` as the empty-interpolation template. -/
theorem countChar_pill_of (t v lb : String) (c : Char) (K : Nat)
    (ht : countChar t c = 0) (hv : countChar v c = 0) (hl : countChar lb c = 0)
    (hK : countChar (pillButtonHtml "" "" "") c = K) :
    countChar (pillButtonHtml t v lb) c = K := by
  have hempty : countChar "" c = 0 := rfl
  simp only [pillButtonHtml, countChar_append, ht, hv, hl, hempty] at *
  omega

/-- Escaped text contains none of the four dangerous characters. -/
theorem countChar_escape_zero (x : String) (c : Char) (hc : htmlSafeChar c = false) :
    countChar (escapeHtml x) c = 0 := by
  rw [countChar, escapeHtml_eq_escList, List.count_eq_zero]
  intro hmem
  have hall := escList_safe x.data
  rw [List.all_eq_true] at hall
  have h2 := hall c hmem
  rw [hc] at h2
  exact Bool.false_ne_true h2

/-- Every pill built by `buildPills` carries one of the five literal types. -/
theorem buildPills_type (f : Filters) (p : Pill) (hp : p ∈ buildPills f) :
    p.type = "query" ∨ p.type = "tech" ∨ p.type = "refs" ∨
      p.type = "stars" ∨ p.type = "year" := by
  simp only [buildPills, List.mem_append] at hp
  rcases hp with (((hp | hp) | hp) | hp) | hp
  · split at hp
    · simp at hp
      subst hp
      exact Or.inl rfl
    · simp at hp
  · obtain ⟨v, _, rfl⟩ := List.mem_map.mp hp
    exact Or.inr (Or.inl rfl)
  · obtain ⟨v, _, rfl⟩ := List.mem_map.mp hp
    exact Or.inr (Or.inr (Or.inl rfl))
  · rcases hst : f.stars with _ | sv
    · rw [hst] at hp; simp at hp
    · rw [hst] at hp
      cases sv <;> simp at hp <;> subst hp <;>
        exact Or.inr (Or.inr (Or.inr (Or.inl rfl)))
  · rcases hyf : f.yearFrom with _ | yf
    · rw [hyf] at hp; simp at hp
    · rw [hyf] at hp
      simp at hp
      subst hp
      exact Or.inr (Or.inr (Or.inr (Or.inr rfl)))

/-- Summing a constant over a list. -/
theorem sum_map_const_of {α : Type} (l : List α) (g : α → Nat) (K : Nat)
    (hg : ∀ x ∈ l, g x = K) : (l.map g).sum = K * l.length := by
  induction l with
  | nil => simp
  | cons x xs ih =>
    simp only [List.map_cons, List.sum_cons, List.length_cons]
    rw [hg x (List.mem_cons_self x xs), ih fun y hy => hg y (List.mem_cons_of_mem x hy)]
    ring

/-- The pill container HTML contains exactly the template's occurrences of a
dangerous character: `K` per pill, none contributed by filter text. -/
theorem countChar_renderPills (f : Filters) (c : Char) (K : Nat)
    (hc : htmlSafeChar c = false)
    (htype : ∀ p ∈ buildPills f, countChar p.type c = 0)
    (hK : countChar (pillButtonHtml "" "" "") c = K) :
    countChar (renderPillsHtml f) c = K * (buildPills f).length := by
  rw [renderPillsHtml, countChar_concatAll, List.map_map]
  rw [sum_map_const_of (buildPills f) _ K]
  intro p hp
  exact countChar_pill_of _ _ _ c K (htype p hp)
    (countChar_escape_zero _ c hc) (countChar_escape_zero _ c hc) hK

/-- Two filter records with equal fields are equal. -/
theorem filtersExt (a b : Filters)
    (h1 : a.query = b.query) (h2 : a.techs = b.techs) (h3 : a.refs = b.refs)
    (h4 : a.stars = b.stars) (h5 : a.yearFrom = b.yearFrom) (h6 : a.yearTo = b.yearTo)
    (h7 : a.techMatch = b.techMatch) (h8 : a.refMatch = b.refMatch) : a = b := by
  cases a; cases b; simp_all

/-- The year fixup leaves `query` alone. -/
theorem updateFilters_query (f : Filters) (u : Updates) :
    (updateFilters f u).query = (applyUpdates f u).query := by
  simp only [updateFilters]
  split
  · rfl
  · split <;> rfl

/-- The year fixup leaves `techs` alone. -/
theorem updateFilters_techs (f : Filters) (u : Updates) :
    (updateFilters f u).techs = (applyUpdates f u).techs := by
  simp only [updateFilters]
  split
  · rfl
  · split <;> rfl

/-- The year fixup leaves `refs` alone. -/
theorem updateFilters_refs (f : Filters) (u : Updates) :
    (updateFilters f u).refs = (applyUpdates f u).refs := by
  simp only [updateFilters]
  split
  · rfl
  · split <;> rfl

/-- The year fixup leaves `stars` alone. -/
theorem updateFilters_stars (f : Filters) (u : Updates) :
    (updateFilters f u).stars = (applyUpdates f u).stars := by
  simp only [updateFilters]
  split
  · rfl
  · split <;> rfl

/-- The year fixup leaves `yearFrom` alone. -/
theorem updateFilters_yearFrom (f : Filters) (u : Updates) :
    (updateFilters f u).yearFrom = (applyUpdates f u).yearFrom := by
  simp only [updateFilters]
  split
  · rfl
  · split <;> rfl

/-- The year fixup leaves `techMatch` alone. -/
theorem updateFilters_techMatch (f : Filters) (u : Updates) :
    (updateFilters f u).techMatch = (applyUpdates f u).techMatch := by
  simp only [updateFilters]
  split
  · rfl
  · split <;> rfl

/-- The year fixup leaves `refMatch` alone. -/
theorem updateFilters_refMatch (f : Filters) (u : Updates) :
    (updateFilters f u).refMatch = (applyUpdates f u).refMatch := by
  simp only [updateFilters]
  split
  · rfl
  · split <;> rfl

/-- The stored `yearTo` after the fixup. -/
theorem updateFilters_yearTo (f : Filters) (u : Updates) :
    (updateFilters f u).yearTo =
      (if (applyUpdates f u).yearFrom = none then none
       else if u.yearFrom.isSome ∧ u.yearTo = none then (applyUpdates f u).yearFrom
       else (applyUpdates f u).yearTo) := by
  simp only [updateFilters]
  split
  · simp_all
  · split <;> simp_all

/-- After trimming the leading whitespace and then the trailing whitespace,
the front is still whitespace-free. -/
theorem trim_step (l : List Char) :
    List.dropWhile Char.isWhitespace
        (List.rdropWhile Char.isWhitespace (List.dropWhile Char.isWhitespace l)) =
      List.rdropWhile Char.isWhitespace (List.dropWhile Char.isWhitespace l) := by
  rw [List.dropWhile_eq_self_iff]
  intro hl
  have hpre := List.rdropWhile_prefix Char.isWhitespace (List.dropWhile Char.isWhitespace l)
  have hml : 0 < (List.dropWhile Char.isWhitespace l).length :=
    lt_of_lt_of_le hl hpre.length_le
  have hget := hpre.get_eq hl
  rw [hget]
  exact List.dropWhile_get_zero_not _ _ hml

/-- Trimming is idempotent. -/
theorem trimChars_idem (l : List Char) : trimChars (trimChars l) = trimChars l := by
  show List.rdropWhile Char.isWhitespace
      (List.dropWhile Char.isWhitespace
        (List.rdropWhile Char.isWhitespace (List.dropWhile Char.isWhitespace l))) = _
  rw [trim_step]
  exact List.rdropWhile_idempotent _ _

/-- `trim` is idempotent on strings. -/
theorem jsTrim_idem (s : String) : jsTrim (jsTrim s) = jsTrim s := by
  show String.mk (trimChars (trimChars s.data)) = String.mk (trimChars s.data)
  rw [trimChars_idem]

/-- Every stored normalized-list element is a trimmed, non-empty string. -/
theorem normalizeList_mem (l : JList) (x : String) (hx : x ∈ normalizeList l) :
    jsTrim x = x ∧ x ≠ "" := by
  cases l with
  | notArray => simp [normalizeList] at hx
  | arr xs =>
    simp only [normalizeList, List.mem_filter, List.mem_map] at hx
    obtain ⟨⟨v, _, rfl⟩, hne⟩ := hx
    exact ⟨jsTrim_idem _, by simpa using hne⟩

/-- The normalized query value is trimmed. -/
theorem jsQueryNorm_trimmed (v : JVal) : jsTrim (jsQueryNorm v) = jsQueryNorm v := by
  cases v <;> first
    | rfl
    | exact jsTrim_idem _

/-- Forcing `yearTo` whenever `yearFrom` stores `null` (`updateFilters`). -/
theorem updateFilters_year_link (f : Filters) (u : Updates)
    (h : (updateFilters f u).yearFrom = none) : (updateFilters f u).yearTo = none := by
  rw [updateFilters_yearFrom] at h
  rw [updateFilters_yearTo, if_pos h]

/-- Forcing `yearTo` whenever `yearFrom` stores `null` (`updateDraft`). -/
theorem updateDraft_year_link (d : Filters) (u : Updates)
    (h : (updateDraft d u).yearFrom = none) : (updateDraft d u).yearTo = none := by
  by_cases hc : (draftRM (draftTM (draftYT (draftYF (draftS (draftR (draftT
      (draftQ d u) u) u) u) u) u) u) u).yearFrom = none
  · simp only [updateDraft, if_pos hc]
  · simp only [updateDraft, if_neg hc] at h
    exact absurd h hc

/-- Step 6 leaves the year fields unchanged when no `yearTo` key is given. -/
theorem draftYT_skip (d : Filters) (u : Updates) (h : u.yearTo = none) :
    draftYT d u = d := by
  simp [draftYT, h]

/-- Step 7 leaves the year fields unchanged. -/
theorem draftTM_years (d : Filters) (u : Updates) :
    (draftTM d u).yearFrom = d.yearFrom ∧ (draftTM d u).yearTo = d.yearTo := by
  cases h : u.techMatch <;> simp [draftTM, h]

/-- Step 8 leaves the year fields unchanged. -/
theorem draftRM_years (d : Filters) (u : Updates) :
    (draftRM d u).yearFrom = d.yearFrom ∧ (draftRM d u).yearTo = d.yearTo := by
  cases h : u.refMatch <;> simp [draftRM, h]

/-- A `yearFrom`-only update with a non-null value copies it into `yearTo`
(`updateFilters`). -/
theorem updateFilters_yearFrom_alone (f : Filters) (u : Updates) (v : JVal) (y : Int)
    (h1 : u.yearFrom = some v) (h2 : u.yearTo = none) (h3 : normalizeNumber v = some y) :
    (updateFilters f u).yearTo = (updateFilters f u).yearFrom ∧
      (updateFilters f u).yearFrom = some y := by
  have haf : (applyUpdates f u).yearFrom = some y := by
    simp [applyUpdates, h1, h3]
  constructor
  · rw [updateFilters_yearTo, updateFilters_yearFrom, if_neg (by simp [haf]),
      if_pos ⟨by simp [h1], h2⟩]
  · rw [updateFilters_yearFrom, haf]

/-- A `yearFrom`-only update with a non-null value copies it into `yearTo`
(`updateDraft`). -/
theorem updateDraft_yearFrom_alone (d : Filters) (u : Updates) (v : JVal) (y : Int)
    (h1 : u.yearFrom = some v) (h2 : u.yearTo = none) (h3 : normalizeNumber v = some y) :
    (updateDraft d u).yearTo = (updateDraft d u).yearFrom ∧
      (updateDraft d u).yearFrom = some y := by
  have hyf : (draftYF (draftS (draftR (draftT (draftQ d u) u) u) u) u).yearFrom = some y ∧
      (draftYF (draftS (draftR (draftT (draftQ d u) u) u) u) u).yearTo = some y := by
    simp [draftYF, h1, h2, h3]
  have h6 := draftYT_skip (draftYF (draftS (draftR (draftT (draftQ d u) u) u) u) u) u h2
  have h7 := draftTM_years (draftYT (draftYF (draftS (draftR (draftT (draftQ d u) u) u) u) u) u) u
  have h8 := draftRM_years
    (draftTM (draftYT (draftYF (draftS (draftR (draftT (draftQ d u) u) u) u) u) u) u) u
  have hfin :
      (draftRM (draftTM (draftYT (draftYF (draftS (draftR (draftT (draftQ d u) u) u) u) u) u) u) u).yearFrom
        = some y ∧
      (draftRM (draftTM (draftYT (draftYF (draftS (draftR (draftT (draftQ d u) u) u) u) u) u) u) u).yearTo
        = some y := by
    rw [h8.1, h8.2, h7.1, h7.2, h6]
    exact hyf
  simp only [updateDraft]
  rw [if_neg (by rw [hfin.1]; exact fun hc => Option.noConfusion hc)]
  rw [hfin.1, hfin.2]
  exact ⟨rfl, rfl⟩

/-- The marks list computed by `applyFilters` is the pointwise `rowMark`. -/
theorem applyFilters_marks (f : Filters) (rows : List Row) :
    (applyFilters f rows).1 = rows.map (rowMark f) := by
  induction rows with
  | nil => rfl
  | cons r rs ih => simp [applyFilters, ih]

/-- Re-applying the same update payload reproduces the same filter record. -/
theorem updateFilters_idem (f : Filters) (u : Updates) :
    updateFilters (updateFilters f u) u = updateFilters f u := by
  have hAF : (applyUpdates (updateFilters f u) u).yearFrom = (applyUpdates f u).yearFrom := by
    cases h : u.yearFrom <;> simp [applyUpdates, h, updateFilters_yearFrom]
  apply filtersExt
  · rw [updateFilters_query, updateFilters_query]
    cases h : u.query <;> simp [applyUpdates, h, updateFilters_query]
  · rw [updateFilters_techs, updateFilters_techs]
    cases h : u.techs <;> simp [applyUpdates, h, updateFilters_techs]
  · rw [updateFilters_refs, updateFilters_refs]
    cases h : u.refs <;> simp [applyUpdates, h, updateFilters_refs]
  · rw [updateFilters_stars, updateFilters_stars]
    cases h : u.stars <;> simp [applyUpdates, h, updateFilters_stars]
  · rw [updateFilters_yearFrom, updateFilters_yearFrom]
    exact hAF
  · rw [updateFilters_yearTo, updateFilters_yearTo, hAF]
    rcases hyt : u.yearTo with _ | v
    · rcases hyf : u.yearFrom with _ | w
      · have hAT : (applyUpdates (updateFilters f u) u).yearTo = (updateFilters f u).yearTo := by
          simp [applyUpdates, hyt]
        rw [hAT, updateFilters_yearTo]
        by_cases hC : (applyUpdates f u).yearFrom = none <;> simp [hC, hyf, hyt]
      · simp [hyf, hyt]
    · have hAT : (applyUpdates (updateFilters f u) u).yearTo =
          (applyUpdates f u).yearTo := by
        simp [applyUpdates, hyt]
      rw [hAT]
  · rw [updateFilters_techMatch, updateFilters_techMatch]
    cases h : u.techMatch <;> simp [applyUpdates, h, updateFilters_techMatch]
  · rw [updateFilters_refMatch, updateFilters_refMatch]
    cases h : u.refMatch <;> simp [applyUpdates, h, updateFilters_refMatch]

/-- Clicking a header other than the currently sorted column: restart at
click 1, ascending, secondary mode for the recognized dual-sort columns;
all other headers' indicators are cleared. -/
theorem handleSort_switch (env : SortEnv) (hIdx : Nat) (h : HeaderInfo)
    (hh : env.headers[hIdx]? = some h)
    (hstart : env.sort.columnIndex ≠ some h.column) :
    (handleSort env hIdx).sort.direction = some Dir.asc ∧
    (handleSort env hIdx).sort.mode =
      (if h.dualSort ∧ (h.columnName = "App. URL" ∨ h.columnName = "Note(s)") then
        (if h.columnName = "App. URL" then SMode.numeric else SMode.date)
       else SMode.text) ∧
    (handleSort env hIdx).sort.clickCount = 1 ∧
    (handleSort env hIdx).sort.columnIndex = some h.column ∧
    (handleSort env hIdx).headers = env.headers ∧
    (handleSort env hIdx).originalRows = env.originalRows ∧
    (handleSort env hIdx).rows =
      sortTable env.headers env.rows h.column Dir.asc
        (if h.dualSort ∧ (h.columnName = "App. URL" ∨ h.columnName = "Note(s)") then
          (if h.columnName = "App. URL" then SMode.numeric else SMode.date)
         else SMode.text) := by
  refine ⟨?_, ?_, ?_, ?_, ?_, ?_, ?_⟩ <;>
    simp only [handleSort, hh, sortDecision, if_neg hstart]

/-- Every click with a valid header clears the indicators of all other
headers (before possibly setting the clicked one). -/
theorem handleSort_clears_other (env : SortEnv) (hIdx : Nat) (h : HeaderInfo)
    (hh : env.headers[hIdx]? = some h) (j : Nat)
    (hj : j < env.indicators.length) (hne : j ≠ hIdx) :
    (handleSort env hIdx).indicators[j]? = some (Aria.noSort, "") := by
  simp only [handleSort, hh]
  cases hdec : (sortDecision env.sort h.column h.dualSort h.columnName).1 <;>
    simp [hdec, List.getElem?_set_ne (Ne.symm hne), hj]

/-- A same-column click on a dual-sort header at cycle position 1. -/
theorem same_dual_r1 (env : SortEnv) (hIdx : Nat) (h : HeaderInfo)
    (hh : env.headers[hIdx]? = some h) (hd : h.dualSort = true)
    (hsame : env.sort.columnIndex = some h.column)
    (hcc : (env.sort.clickCount + 1) % 5 = 1) :
    (handleSort env hIdx).sort.direction = some Dir.asc ∧
    (handleSort env hIdx).sort.mode =
      (if h.columnName = "App. URL" then SMode.numeric else SMode.date) ∧
    (handleSort env hIdx).sort.clickCount = env.sort.clickCount + 1 ∧
    (handleSort env hIdx).sort.columnIndex = some h.column ∧
    (handleSort env hIdx).headers = env.headers ∧
    (handleSort env hIdx).originalRows = env.originalRows := by
  refine ⟨?_, ?_, ?_, ?_, ?_, ?_⟩ <;>
    simp only [handleSort, hh, sortDecision, hsame, hd, hcc] <;> simp

/-- A same-column click on a dual-sort header at cycle position 2. -/
theorem same_dual_r2 (env : SortEnv) (hIdx : Nat) (h : HeaderInfo)
    (hh : env.headers[hIdx]? = some h) (hd : h.dualSort = true)
    (hsame : env.sort.columnIndex = some h.column)
    (hcc : (env.sort.clickCount + 1) % 5 = 2) :
    (handleSort env hIdx).sort.direction = some Dir.desc ∧
    (handleSort env hIdx).sort.mode =
      (if h.columnName = "App. URL" then SMode.numeric else SMode.date) ∧
    (handleSort env hIdx).sort.clickCount = env.sort.clickCount + 1 ∧
    (handleSort env hIdx).sort.columnIndex = some h.column ∧
    (handleSort env hIdx).headers = env.headers ∧
    (handleSort env hIdx).originalRows = env.originalRows := by
  refine ⟨?_, ?_, ?_, ?_, ?_, ?_⟩ <;>
    simp only [handleSort, hh, sortDecision, hsame, hd, hcc] <;> simp

/-- A same-column click on a dual-sort header at cycle position 3. -/
theorem same_dual_r3 (env : SortEnv) (hIdx : Nat) (h : HeaderInfo)
    (hh : env.headers[hIdx]? = some h) (hd : h.dualSort = true)
    (hsame : env.sort.columnIndex = some h.column)
    (hcc : (env.sort.clickCount + 1) % 5 = 3) :
    (handleSort env hIdx).sort.direction = some Dir.asc ∧
    (handleSort env hIdx).sort.mode = SMode.text ∧
    (handleSort env hIdx).sort.clickCount = env.sort.clickCount + 1 ∧
    (handleSort env hIdx).sort.columnIndex = some h.column ∧
    (handleSort env hIdx).headers = env.headers ∧
    (handleSort env hIdx).originalRows = env.originalRows := by
  refine ⟨?_, ?_, ?_, ?_, ?_, ?_⟩ <;>
    simp only [handleSort, hh, sortDecision, hsame, hd, hcc] <;> simp

/-- A same-column click on a dual-sort header at cycle position 4. -/
theorem same_dual_r4 (env : SortEnv) (hIdx : Nat) (h : HeaderInfo)
    (hh : env.headers[hIdx]? = some h) (hd : h.dualSort = true)
    (hsame : env.sort.columnIndex = some h.column)
    (hcc : (env.sort.clickCount + 1) % 5 = 4) :
    (handleSort env hIdx).sort.direction = some Dir.desc ∧
    (handleSort env hIdx).sort.mode = SMode.text ∧
    (handleSort env hIdx).sort.clickCount = env.sort.clickCount + 1 ∧
    (handleSort env hIdx).sort.columnIndex = some h.column ∧
    (handleSort env hIdx).headers = env.headers ∧
    (handleSort env hIdx).originalRows = env.originalRows := by
  refine ⟨?_, ?_, ?_, ?_, ?_, ?_⟩ <;>
    simp only [handleSort, hh, sortDecision, hsame, hd, hcc] <;> simp

/-- A same-column click on a dual-sort header at cycle position 0: reset to
the bind-time order and clear the sort state. -/
theorem same_dual_r0 (env : SortEnv) (hIdx : Nat) (h : HeaderInfo)
    (hh : env.headers[hIdx]? = some h) (hd : h.dualSort = true)
    (hsame : env.sort.columnIndex = some h.column)
    (hcc : (env.sort.clickCount + 1) % 5 = 0) :
    (handleSort env hIdx).rows = env.originalRows ∧
    (handleSort env hIdx).sort = defaultSortSt ∧
    (handleSort env hIdx).headers = env.headers ∧
    (handleSort env hIdx).originalRows = env.originalRows := by
  refine ⟨?_, ?_, ?_, ?_⟩ <;>
    simp only [handleSort, hh, sortDecision, hsame, hd, hcc] <;> simp

/-- A same-column click on a regular header while sorted ascending. -/
theorem same_regular_asc (env : SortEnv) (hIdx : Nat) (h : HeaderInfo)
    (hh : env.headers[hIdx]? = some h) (hd : h.dualSort = false)
    (hsame : env.sort.columnIndex = some h.column)
    (hdir : env.sort.direction = some Dir.asc) :
    (handleSort env hIdx).sort.direction = some Dir.desc ∧
    (handleSort env hIdx).sort.mode = SMode.text ∧
    (handleSort env hIdx).sort.columnIndex = some h.column ∧
    (handleSort env hIdx).headers = env.headers ∧
    (handleSort env hIdx).originalRows = env.originalRows ∧
    (handleSort env hIdx).rows =
      sortTable env.headers env.rows h.column Dir.desc SMode.text := by
  refine ⟨?_, ?_, ?_, ?_, ?_, ?_⟩ <;>
    simp only [handleSort, hh, sortDecision, hsame, hd, hdir] <;> simp

/-- A same-column click on a regular header while sorted descending:
reset to the bind-time order and clear the sort state. -/
theorem same_regular_desc (env : SortEnv) (hIdx : Nat) (h : HeaderInfo)
    (hh : env.headers[hIdx]? = some h) (hd : h.dualSort = false)
    (hsame : env.sort.columnIndex = some h.column)
    (hdir : env.sort.direction = some Dir.desc) :
    (handleSort env hIdx).rows = env.originalRows ∧
    (handleSort env hIdx).sort = defaultSortSt := by
  refine ⟨?_, ?_⟩ <;>
    simp only [handleSort, hh, sortDecision, hsame, hd, hdir] <;> simp

/-- C1: for every collection state and every row of its table, after
`applyFilters` runs the row is visible (not marked filtered-out) iff it
satisfies every active criterion group — non-empty query, tech tags under
`techMatch`, refs tags under `refMatch`, active stars criterion, active
year criterion — and inactive groups impose no constraint. -/
theorem c1_applyFilters_visibility (f : Filters) (rows : List Row) :
    (applyFilters f rows).1 = rows.map (rowMark f) ∧
    ∀ row : Row, rowMark f row = true ↔
      (queryPass f row = true ∧ techPass f row = true ∧ refPass f row = true ∧
       starsPass f row = true ∧ yearPass f row = true) := by
  refine ⟨applyFilters_marks f rows, fun row => ?_⟩
  rw [rowMark_eq_passes]
  simp [Bool.and_eq_true, and_assoc]

/-- C3: across any sequence of `updateFilters` calls the stored filters
keep `yearTo` null whenever `yearFrom` is null; a single call supplying a
`yearFrom` key that normalizes non-null without a `yearTo` key leaves
`yearTo` equal to `yearFrom`; and the same two facts hold for the modal
draft under `updateDraft`. -/
theorem c3_year_invariant :
    (∀ us : List Updates, (us.foldl updateFilters defaultFilters).yearTo ≠ none →
      (us.foldl updateFilters defaultFilters).yearFrom ≠ none) ∧
    (∀ (f : Filters) (u : Updates), (updateFilters f u).yearTo ≠ none →
      (updateFilters f u).yearFrom ≠ none) ∧
    (∀ (f : Filters) (u : Updates) (v : JVal) (y : Int), u.yearFrom = some v →
      u.yearTo = none → normalizeNumber v = some y →
      (updateFilters f u).yearTo = (updateFilters f u).yearFrom) ∧
    (∀ (d : Filters) (u : Updates), (updateDraft d u).yearTo ≠ none →
      (updateDraft d u).yearFrom ≠ none) ∧
    (∀ (d : Filters) (u : Updates) (v : JVal) (y : Int), u.yearFrom = some v →
      u.yearTo = none → normalizeNumber v = some y →
      (updateDraft d u).yearTo = (updateDraft d u).yearFrom) := by
  refine ⟨?_, ?_, ?_, ?_, ?_⟩
  · intro us
    suffices h : ∀ f : Filters, (f.yearFrom = none → f.yearTo = none) →
        ((us.foldl updateFilters f).yearFrom = none →
          (us.foldl updateFilters f).yearTo = none) by
      intro hyt hyf
      exact hyt (h defaultFilters (fun _ => rfl) hyf)
    induction us with
    | nil => intro f hf; exact hf
    | cons u us ih =>
      intro f _
      exact ih (updateFilters f u) (updateFilters_year_link f u)
  · intro f u hyt hyf
    exact hyt (updateFilters_year_link f u hyf)
  · intro f u v y h1 h2 h3
    exact (updateFilters_yearFrom_alone f u v y h1 h2 h3).1
  · intro d u hyt hyf
    exact hyt (updateDraft_year_link d u hyf)
  · intro d u v y h1 h2 h3
    exact (updateDraft_yearFrom_alone d u v y h1 h2 h3).1

/-- C3 witness: concrete instance of the invariant and the single-year
convenience. -/
theorem c3_year_invariant_witness :
    (updateFilters defaultFilters { noUpdates with yearFrom := some (JVal.num 2020) }).yearTo =
      (updateFilters defaultFilters { noUpdates with yearFrom := some (JVal.num 2020) }).yearFrom :=
  c3_year_invariant.2.2.1 defaultFilters
    { noUpdates with yearFrom := some (JVal.num 2020) } (JVal.num 2020) 2020 rfl rfl (by decide)

/-- C8: applying the same `updateFilters` payload twice yields the same
stored filters, the same visibility marks on every table, and the same
pill list and pill HTML as applying it once. -/
theorem c8_updateFilters_idempotent (f : Filters) (u : Updates) :
    updateFilters (updateFilters f u) u = updateFilters f u ∧
    (∀ rows, applyFilters (updateFilters (updateFilters f u) u) rows =
      applyFilters (updateFilters f u) rows) ∧
    buildPills (updateFilters (updateFilters f u) u) = buildPills (updateFilters f u) ∧
    renderPillsHtml (updateFilters (updateFilters f u) u) =
      renderPillsHtml (updateFilters f u) := by
  have h := updateFilters_idem f u
  exact ⟨h, fun rows => by rw [h], by rw [h], by rw [h]⟩

/-- A draft-only modal event never touches the live filters. -/
theorem modalStep_edit_live (s : ModalState) (e : ModalEvent)
    (h : isEditEvent e = true) : (modalStep s e).live = s.live := by
  cases e with
  | edit u =>
    simp only [modalStep]
    split <;> rfl
  | clearDraft =>
    simp only [modalStep]
    split <;> rfl
  | accept => simp [isEditEvent] at h
  | close => simp [isEditEvent] at h

/-- A run of draft-only modal events never touches the live filters. -/
theorem foldl_edit_live (es : List ModalEvent) (s : ModalState)
    (h : ∀ e ∈ es, isEditEvent e = true) : (es.foldl modalStep s).live = s.live := by
  induction es generalizing s with
  | nil => rfl
  | cons e es ih =>
    rw [List.foldl_cons]
    exact (ih (modalStep s e) fun x hx => h x (List.mem_cons_of_mem e hx)).trans
      (modalStep_edit_live s e (h e (List.mem_cons_self e es)))

/-- C2: while the advanced-search modal is open, any sequence of modal
edits mutates only the draft — the live filters and hence the page's
visible rows are unchanged; a discarding close after those edits leaves the
live filters exactly equal, field for field, to their value at open time
(and clears the draft); and Accept commits the draft through
`updateFilters`. -/
theorem c2_draft_isolation (live : Filters) (es : List ModalEvent)
    (hed : ∀ e ∈ es, isEditEvent e = true) :
    (es.foldl modalStep (openModal live)).live = live ∧
    (∀ rows, applyFilters (es.foldl modalStep (openModal live)).live rows =
      applyFilters live rows) ∧
    (modalStep (es.foldl modalStep (openModal live)) ModalEvent.close).live = live ∧
    (modalStep (es.foldl modalStep (openModal live)) ModalEvent.close).draft = none ∧
    (∀ (s : ModalState) (d : Filters), s.draft = some d →
      (modalStep s ModalEvent.accept).live =
        updateFilters s.live (filtersAsUpdates d)) := by
  have h1 : (es.foldl modalStep (openModal live)).live = live :=
    foldl_edit_live es (openModal live) hed
  refine ⟨h1, fun rows => by rw [h1], ?_, rfl, ?_⟩
  · show (es.foldl modalStep (openModal live)).live = live
    exact h1
  · intro s d hd
    simp [modalStep, hd]

/-- C2 witness: a concrete query edit inside the modal leaves the live
filters untouched. -/
theorem c2_draft_isolation_witness :
    (([ModalEvent.edit { noUpdates with query := some (JVal.str "x") }].foldl modalStep
      (openModal defaultFilters)).live = defaultFilters) :=
  (c2_draft_isolation defaultFilters
    [ModalEvent.edit { noUpdates with query := some (JVal.str "x") }]
    (by intro e he; simp at he; subst he; rfl)).1

/-- All keystrokes of a burst re-arm the timer with the latest value. -/
theorem debounce_keys (s : DebounceState) (vs : List String) (hne : vs ≠ []) :
    (vs.map DebounceEvent.keystroke).foldl debounceStep s =
      { pendingValue := some (vs.getLast hne), committed := s.committed } := by
  induction vs generalizing s with
  | nil => exact absurd rfl hne
  | cons v vs ih =>
    cases vs with
    | nil => rfl
    | cons w ws =>
      rw [List.map_cons, List.foldl_cons, ih (debounceStep s (DebounceEvent.keystroke v))
        (by simp)]
      rfl

/-- C9: a burst of keystrokes with no timer expiry in between, followed by
the single surviving timer expiry, commits exactly one query update, whose
value is the input's value after the final keystroke. -/
theorem c9_debounce (s0 : DebounceState) (vs : List String) (hne : vs ≠ []) :
    ((vs.map DebounceEvent.keystroke ++ [DebounceEvent.timerFire]).foldl
        debounceStep s0).committed = s0.committed ++ [vs.getLast hne] ∧
    ((vs.map DebounceEvent.keystroke ++ [DebounceEvent.timerFire]).foldl
        debounceStep s0).pendingValue = none ∧
    (∀ (f : Filters) (v : String),
      (updateFilters f { noUpdates with query := some (JVal.str v) }).query = jsTrim v) := by
  rw [List.foldl_append, debounce_keys s0 vs hne]
  refine ⟨rfl, rfl, ?_⟩
  intro f v
  rw [updateFilters_query]
  rfl

/-- C9 witness: typing `cat`, `cats`, `cats2` inside the debounce window
commits exactly one update, equal to `cats2`. -/
theorem c9_debounce_witness :
    ((["cat", "cats", "cats2"].map DebounceEvent.keystroke ++
        [DebounceEvent.timerFire]).foldl debounceStep
      { pendingValue := none, committed := [] }).committed = ["cats2"] := by
  have h := (c9_debounce { pendingValue := none, committed := [] }
    ["cat", "cats", "cats2"] (by decide)).1
  simpa using h

/-- C5 counterexample: `normalizeList` does not deduplicate — storing
`techs = ["java", "java"]` keeps the duplicate, so the stored list is not
the deduplicated list the claim describes. -/
theorem c5_counterexample :
    (updateFilters defaultFilters
      { noUpdates with techs := some (JList.arr [JVal.str "java", JVal.str "java"]) }).techs =
      ["java", "java"] ∧
    ¬ (updateFilters defaultFilters
      { noUpdates with techs := some (JList.arr [JVal.str "java", JVal.str "java"]) }).techs.Nodup := by
  constructor
  · decide
  · decide

/-- C5 (amended): every `updateFilters` call normalizes before storing —
the query is trimmed, tag lists have each element trimmed and empty strings
dropped (but are not deduplicated), `stars` stores the `"none"` sentinel
literally and otherwise a finite number or null, `yearFrom`/`yearTo` are
coerced to a finite number or null, and the match modes store `and` exactly
when given `'and'`. -/
theorem c5_normalization (f : Filters) (u : Updates) :
    (∀ v, u.query = some v → (updateFilters f u).query = jsQueryNorm v ∧
      jsTrim (updateFilters f u).query = (updateFilters f u).query) ∧
    (∀ l, u.techs = some l → (updateFilters f u).techs = normalizeList l ∧
      ∀ x ∈ (updateFilters f u).techs, jsTrim x = x ∧ x ≠ "") ∧
    (∀ l, u.refs = some l → (updateFilters f u).refs = normalizeList l ∧
      ∀ x ∈ (updateFilters f u).refs, jsTrim x = x ∧ x ≠ "") ∧
    (∀ v, u.stars = some v → (updateFilters f u).stars =
      (if v = JVal.str "none" then some StarsVal.sentinelNone
       else (normalizeNumber v).map StarsVal.threshold)) ∧
    (∀ v, u.yearFrom = some v → (updateFilters f u).yearFrom = normalizeNumber v) ∧
    (∀ v, u.yearTo = some v → (updateFilters f u).yearFrom ≠ none →
      (updateFilters f u).yearTo = normalizeNumber v) ∧
    (∀ v, u.techMatch = some v →
      ((updateFilters f u).techMatch = MatchMode.and ↔ v = JVal.str "and")) ∧
    (∀ v, u.refMatch = some v →
      ((updateFilters f u).refMatch = MatchMode.and ↔ v = JVal.str "and")) := by
  refine ⟨?_, ?_, ?_, ?_, ?_, ?_, ?_, ?_⟩
  · intro v hv
    have hq : (updateFilters f u).query = jsQueryNorm v := by
      rw [updateFilters_query]
      simp [applyUpdates, hv]
    exact ⟨hq, by rw [hq]; exact jsQueryNorm_trimmed v⟩
  · intro l hl
    have ht : (updateFilters f u).techs = normalizeList l := by
      rw [updateFilters_techs]
      simp [applyUpdates, hl]
    exact ⟨ht, fun x hx => normalizeList_mem l x (ht ▸ hx)⟩
  · intro l hl
    have ht : (updateFilters f u).refs = normalizeList l := by
      rw [updateFilters_refs]
      simp [applyUpdates, hl]
    exact ⟨ht, fun x hx => normalizeList_mem l x (ht ▸ hx)⟩
  · intro v hv
    rw [updateFilters_stars]
    simp [applyUpdates, hv, starsNorm]
  · intro v hv
    rw [updateFilters_yearFrom]
    simp [applyUpdates, hv]
  · intro v hv hyf
    rw [updateFilters_yearFrom] at hyf
    rw [updateFilters_yearTo, if_neg hyf, if_neg (by simp [hv])]
    simp [applyUpdates, hv]
  · intro v hv
    rw [updateFilters_techMatch]
    by_cases hva : v = JVal.str "and" <;> simp [applyUpdates, hv, matchNorm, hva]
  · intro v hv
    rw [updateFilters_refMatch]
    by_cases hva : v = JVal.str "and" <;> simp [applyUpdates, hv, matchNorm, hva]

/-- C5 witness: the sentinel is stored literally at a concrete call. -/
theorem c5_normalization_witness :
    (updateFilters defaultFilters { noUpdates with stars := some (JVal.str "none") }).stars =
      some StarsVal.sentinelNone := by
  have h := (c5_normalization defaultFilters
    { noUpdates with stars := some (JVal.str "none") }).2.2.2.1 (JVal.str "none") rfl
  simpa using h

/-- C6: with an active stars filter, the `"none"` sentinel passes exactly
the rows whose (non-negative) star count is 0 — a missing attribute counts
as 0 — and a numeric threshold passes exactly the rows whose star count is
at least it; on the Alpha(5)/Beta(0)/Gamma(12) table, `stars = "none"`
leaves exactly Beta visible and `stars = 5` exactly Alpha and Gamma. -/
theorem c6_stars_criterion :
    (∀ (f : Filters) (row : Row) (n : Int),
      jsParseInt (attrOr row.starsAttr "0") = some n → 0 ≤ n →
      (f.stars = some StarsVal.sentinelNone → (starsPass f row = true ↔ n = 0)) ∧
      (∀ t : Int, f.stars = some (StarsVal.threshold t) →
        (starsPass f row = true ↔ t ≤ n))) ∧
    (∀ row : Row, row.starsAttr = none → jsParseInt (attrOr row.starsAttr "0") = some 0) ∧
    (applyFilters starsNoneFilters scenarioRows).1 = [false, true, false] ∧
    (applyFilters stars5Filters scenarioRows).1 = [true, false, true] := by
  refine ⟨?_, ?_, by decide, by decide⟩
  · intro f row n hp hn
    constructor
    · intro hs
      rw [starsPass, hs, hp]
      constructor
      · intro h
        simp at h
        omega
      · intro h
        simp
        omega
    · intro t hs
      rw [starsPass, hs, hp]
      simp
  · intro row h
    rw [h]
    decide

/-- C6 witness: Beta passes the `"none"` criterion. -/
theorem c6_stars_criterion_witness : starsPass starsNoneFilters betaRow = true :=
  (((c6_stars_criterion.1 starsNoneFilters betaRow 0 (by decide) (by decide)).1) rfl).mpr rfl

/-- Each fixed pill type literal avoids a given unsafe character. -/
theorem buildPills_type_count (f : Filters) (c : Char)
    (h1 : countChar "query" c = 0) (h2 : countChar "tech" c = 0)
    (h3 : countChar "refs" c = 0) (h4 : countChar "stars" c = 0)
    (h5 : countChar "year" c = 0) :
    ∀ p ∈ buildPills f, countChar p.type c = 0 := by
  intro p hp
  rcases buildPills_type f p hp with h | h | h | h | h <;> rw [h] <;> assumption

/-- C10: `escapeHtml` output contains no `<`, `>`, `"` or `'`, and every
`&` in it opens one of the five emitted entities; `renderPills` and
`renderModalPills` escape every pill label and value, so the pill-container
HTML contains exactly the template's tag and quote characters — 4 `<`,
4 `>`, 14 `"` per pill and no single quotes — whatever text the filters
hold. -/
theorem c10_escape_and_pills :
    (∀ s : String, (escapeHtml s).data.all htmlSafeChar = true ∧
      ampsOk (escapeHtml s).data = true) ∧
    (∀ f : Filters, renderModalPillsHtml f = renderPillsHtml f ∧
      countChar (renderPillsHtml f) '<' = 4 * (buildPills f).length ∧
      countChar (renderPillsHtml f) '>' = 4 * (buildPills f).length ∧
      countChar (renderPillsHtml f) quoteChar = 14 * (buildPills f).length ∧
      countChar (renderPillsHtml f) aposChar = 0) := by
  constructor
  · intro s
    rw [escapeHtml_eq_escList]
    exact ⟨escList_safe s.data, ampsOk_escList s.data⟩
  · intro f
    refine ⟨rfl, ?_, ?_, ?_, ?_⟩
    · exact countChar_renderPills f '<' 4 (by decide)
        (buildPills_type_count f '<' (by decide) (by decide) (by decide) (by decide) (by decide))
        (by decide)
    · exact countChar_renderPills f '>' 4 (by decide)
        (buildPills_type_count f '>' (by decide) (by decide) (by decide) (by decide) (by decide))
        (by decide)
    · exact countChar_renderPills f quoteChar 14 (by decide)
        (buildPills_type_count f quoteChar (by decide) (by decide) (by decide) (by decide)
          (by decide))
        (by decide)
    · have h := countChar_renderPills f aposChar 0 (by decide)
        (buildPills_type_count f aposChar (by decide) (by decide) (by decide) (by decide)
          (by decide))
        (by decide)
      simpa using h

/-- C7: on a regular (non-dual-sort) sortable column starting unsorted,
the first click sorts ascending, the second descending, and the third
restores the bind-time (pre-sort) row order and clears the sort state. -/
theorem c7_regular_sort_cycle (env : SortEnv) (hIdx : Nat) (h : HeaderInfo)
    (hh : env.headers[hIdx]? = some h) (hd : h.dualSort = false)
    (hstart : env.sort.columnIndex = none) :
    (handleSort env hIdx).sort.direction = some Dir.asc ∧
    (handleSort env hIdx).sort.mode = SMode.text ∧
    (handleSort env hIdx).rows =
      sortTable env.headers env.rows h.column Dir.asc SMode.text ∧
    (handleSort (handleSort env hIdx) hIdx).sort.direction = some Dir.desc ∧
    (handleSort (handleSort env hIdx) hIdx).rows =
      sortTable env.headers (handleSort env hIdx).rows h.column Dir.desc SMode.text ∧
    (handleSort (handleSort (handleSort env hIdx) hIdx) hIdx).rows = env.originalRows ∧
    (handleSort (handleSort (handleSort env hIdx) hIdx) hIdx).sort = defaultSortSt := by
  have hstart' : env.sort.columnIndex ≠ some h.column := by simp [hstart]
  obtain ⟨e1dir, e1mode, e1cc, e1col, e1hdr, e1orig, e1rows⟩ :=
    handleSort_switch env hIdx h hh hstart'
  have hh1 : (handleSort env hIdx).headers[hIdx]? = some h := by rw [e1hdr]; exact hh
  obtain ⟨e2dir, e2mode, e2col, e2hdr, e2orig, e2rows⟩ :=
    same_regular_asc (handleSort env hIdx) hIdx h hh1 hd e1col e1dir
  have hh2 : (handleSort (handleSort env hIdx) hIdx).headers[hIdx]? = some h := by
    rw [e2hdr, e1hdr]; exact hh
  obtain ⟨e3rows, e3sort⟩ :=
    same_regular_desc (handleSort (handleSort env hIdx) hIdx) hIdx h hh2 hd e2col e2dir
  refine ⟨e1dir, ?_, ?_, e2dir, ?_, ?_, e3sort⟩
  · rw [e1mode]; simp [hd]
  · rw [e1rows]; simp [hd]
  · rw [e2rows, e1hdr]
  · rw [e3rows, e2orig, e1orig]

/-- C7 witness: three clicks on the concrete table restore the original
order and clear the sort state. -/
theorem c7_regular_sort_cycle_witness :
    (handleSort (handleSort (handleSort regularEnv 0) 0) 0).rows = regularEnv.originalRows ∧
    (handleSort (handleSort (handleSort regularEnv 0) 0) 0).sort = defaultSortSt :=
  ⟨(c7_regular_sort_cycle regularEnv 0 ⟨0, false, "App Name"⟩ rfl rfl rfl).2.2.2.2.2.1,
   (c7_regular_sort_cycle regularEnv 0 ⟨0, false, "App Name"⟩ rfl rfl rfl).2.2.2.2.2.2⟩

/-- C4: on a dual-sort header (the App. URL and Note(s) columns), starting
from a different (or no) sorted column, clicks 1–4 yield secondary-metric
ascending, secondary-metric descending, primary-text ascending and
primary-text descending in that order (clickCount tracking the click), the
5th click restores the bind-time row order and clears the sort state, and
the switching click restarts the column at its first cycle state
(secondary ascending, clickCount 1) while clearing every other header's
indicator. -/
theorem c4_dual_sort_cycle (env : SortEnv) (hIdx : Nat) (h : HeaderInfo)
    (hh : env.headers[hIdx]? = some h) (hd : h.dualSort = true)
    (hn : h.columnName = "App. URL" ∨ h.columnName = "Note(s)")
    (hstart : env.sort.columnIndex ≠ some h.column) :
    (∀ k, 1 ≤ k → k ≤ 4 →
      ((fun e => handleSort e hIdx)^[k] env).sort.direction =
        some (if k % 2 = 1 then Dir.asc else Dir.desc) ∧
      ((fun e => handleSort e hIdx)^[k] env).sort.mode =
        (if k ≤ 2 then (if h.columnName = "App. URL" then SMode.numeric else SMode.date)
         else SMode.text) ∧
      ((fun e => handleSort e hIdx)^[k] env).sort.clickCount = k) ∧
    ((fun e => handleSort e hIdx)^[5] env).rows = env.originalRows ∧
    ((fun e => handleSort e hIdx)^[5] env).sort = defaultSortSt ∧
    (handleSort env hIdx).sort.direction = some Dir.asc ∧
    (handleSort env hIdx).sort.mode =
      (if h.columnName = "App. URL" then SMode.numeric else SMode.date) ∧
    (handleSort env hIdx).sort.clickCount = 1 ∧
    (∀ j, j < env.indicators.length → j ≠ hIdx →
      (handleSort env hIdx).indicators[j]? = some (Aria.noSort, "")) := by
  obtain ⟨e1dir, e1mode, e1cc, e1col, e1hdr, e1orig, e1rows⟩ :=
    handleSort_switch env hIdx h hh hstart
  have hsec : (if h.dualSort ∧ (h.columnName = "App. URL" ∨ h.columnName = "Note(s)") then
      (if h.columnName = "App. URL" then SMode.numeric else SMode.date)
      else SMode.text) = (if h.columnName = "App. URL" then SMode.numeric else SMode.date) := by
    rcases hn with hA | hA <;> simp [hd, hA]
  rw [hsec] at e1mode
  have hh1 : (handleSort env hIdx).headers[hIdx]? = some h := by rw [e1hdr]; exact hh
  obtain ⟨e2dir, e2mode, e2cc, e2col, e2hdr, e2orig⟩ :=
    same_dual_r2 (handleSort env hIdx) hIdx h hh1 hd e1col (by rw [e1cc])
  rw [e1cc] at e2cc
  have hh2 : (handleSort (handleSort env hIdx) hIdx).headers[hIdx]? = some h := by
    rw [e2hdr, e1hdr]; exact hh
  obtain ⟨e3dir, e3mode, e3cc, e3col, e3hdr, e3orig⟩ :=
    same_dual_r3 (handleSort (handleSort env hIdx) hIdx) hIdx h hh2 hd e2col (by rw [e2cc])
  rw [e2cc] at e3cc
  have hh3 : (handleSort (handleSort (handleSort env hIdx) hIdx) hIdx).headers[hIdx]? =
      some h := by rw [e3hdr, e2hdr, e1hdr]; exact hh
  obtain ⟨e4dir, e4mode, e4cc, e4col, e4hdr, e4orig⟩ :=
    same_dual_r4 (handleSort (handleSort (handleSort env hIdx) hIdx) hIdx) hIdx h hh3 hd
      e3col (by rw [e3cc])
  rw [e3cc] at e4cc
  have hh4 : (handleSort (handleSort (handleSort (handleSort env hIdx) hIdx) hIdx)
      hIdx).headers[hIdx]? = some h := by rw [e4hdr, e3hdr, e2hdr, e1hdr]; exact hh
  obtain ⟨e5rows, e5sort, e5hdr, e5orig⟩ :=
    same_dual_r0 (handleSort (handleSort (handleSort (handleSort env hIdx) hIdx) hIdx) hIdx)
      hIdx h hh4 hd e4col (by rw [e4cc])
  have i1 : (fun e => handleSort e hIdx)^[1] env = handleSort env hIdx :=
    Function.iterate_one (fun e => handleSort e hIdx) ▸ rfl
  have i2 : (fun e => handleSort e hIdx)^[2] env = handleSort (handleSort env hIdx) hIdx := by
    rw [Function.iterate_succ_apply', i1]
  have i3 : (fun e => handleSort e hIdx)^[3] env =
      handleSort (handleSort (handleSort env hIdx) hIdx) hIdx := by
    rw [Function.iterate_succ_apply', i2]
  have i4 : (fun e => handleSort e hIdx)^[4] env =
      handleSort (handleSort (handleSort (handleSort env hIdx) hIdx) hIdx) hIdx := by
    rw [Function.iterate_succ_apply', i3]
  have i5 : (fun e => handleSort e hIdx)^[5] env =
      handleSort (handleSort (handleSort (handleSort (handleSort env hIdx) hIdx) hIdx) hIdx)
        hIdx := by
    rw [Function.iterate_succ_apply', i4]
  refine ⟨?_, ?_, ?_, e1dir, e1mode, e1cc, ?_⟩
  · intro k hk1 hk4
    interval_cases k
    · rw [i1]; exact ⟨by simp [e1dir], by simp [e1mode], by simp [e1cc]⟩
    · rw [i2]; exact ⟨by simp [e2dir], by simp [e2mode], by simp [e2cc]⟩
    · rw [i3]; exact ⟨by simp [e3dir], by simp [e3mode], by simp [e3cc]⟩
    · rw [i4]; exact ⟨by simp [e4dir], by simp [e4mode], by simp [e4cc]⟩
  · rw [i5, e5rows, e4orig, e3orig, e2orig, e1orig]
  · rw [i5]; exact e5sort
  · intro j hj hne
    exact handleSort_clears_other env hIdx h hh j hj hne

/-- C4 witness: five clicks on the concrete dual-sort column restore the
original order and clear the sort state, and click 1 is
secondary-ascending. -/
theorem c4_dual_sort_cycle_witness :
    ((fun e => handleSort e 0)^[5] dualEnv).rows = dualEnv.originalRows ∧
    ((fun e => handleSort e 0)^[5] dualEnv).sort = defaultSortSt ∧
    (handleSort dualEnv 0).sort.mode = SMode.numeric :=
  ⟨(c4_dual_sort_cycle dualEnv 0 ⟨0, true, "App. URL"⟩ rfl rfl (Or.inl rfl)
      (by decide)).2.1,
   (c4_dual_sort_cycle dualEnv 0 ⟨0, true, "App. URL"⟩ rfl rfl (Or.inl rfl)
      (by decide)).2.2.1,
   by
    have h := (c4_dual_sort_cycle dualEnv 0 ⟨0, true, "App. URL"⟩ rfl rfl (Or.inl rfl)
      (by decide)).2.2.2.2.1
    simpa using h⟩
